import Mathlib

/-!
# Verification of the iptv_failover selection engine

Shallow embedding of `src/stream_checker.py` (class `StreamChecker`) and the
claims about its failover selection algorithm.

Python dictionaries are modelled as association lists (`List (String × β)`),
with first-match lookup and replace-first insertion; Python dict keys are
unique, which the theorems carry as `Nodup` hypotheses on the key lists.
Stream entry dicts are opaque to the checker except for their `url` field,
so an entry is modelled as its url string. Network probe outcomes are
abstracted as a verdict table `v : String → Nat → Bool` giving, per channel
group and candidate position, the boolean that `_is_stream_working` returned
for that candidate (the contents of `group_check_results`).
-/

namespace IptvFailover

/-- A stream entry dict, opaque to the checker (identified by its url). -/
abbrev Entry := String

/-- First-match lookup in an association list (Python `d[k]` / `d.get(k)`). -/
def alookup (k : String) : List (String × β) → Option β
  | [] => none
  | (k', v) :: rest => if k = k' then some v else alookup k rest

/-- Replace-first insertion in an association list (Python `d[k] = v`). -/
def aset (k : String) (v : β) : List (String × β) → List (String × β)
  | [] => [(k, v)]
  | (k', v') :: rest => if k = k' then (k, v) :: rest else (k', v') :: aset k v rest

/-- The mutable state of a `StreamChecker`: `self.stream_groups` (channel
name → ordered candidate entries) and `self.current_index` (channel name →
cursor). -/
structure StreamChecker where
  stream_groups : List (String × List Entry)
  current_index : List (String × Nat)
deriving DecidableEq, Repr

/-- `self.current_index.get(g, 0)`: the stored cursor, defaulting to 0. -/
def idxOf (s : StreamChecker) (g : String) : Nat :=
  (alookup g s.current_index).getD 0

/-- `StreamChecker.mark_stream_failed` (the `ReportFailure`/`AdvanceCursor`
operation): if the channel exists and has at least one candidate, advance its
cursor by one modulo the candidate count; otherwise do nothing. -/
def markStreamFailed (s : StreamChecker) (channel : String) : StreamChecker :=
  match alookup channel s.stream_groups with
  | none => s
  | some entries =>
    let current := idxOf s channel
    let total := entries.length
    if 0 < total then
      { s with current_index := aset channel ((current + 1) % total) s.current_index }
    else s

/-- Cursor migration of `StreamChecker.update_config`: keep the old cursor
when the channel name was already tracked and the old cursor still indexes
into the new candidate list, otherwise reset to 0. -/
def migrateIndex (old : List (String × Nat)) (g : String) (entries : List Entry) : Nat :=
  match alookup g old with
  | some oldIdx => if oldIdx < entries.length then oldIdx else 0
  | none => 0

/-- `StreamChecker.update_config` (the `Load` operation): replace the channel
table wholesale and rebuild `current_index` over the new table's channel
names, migrating each cursor with `migrateIndex`. -/
def updateConfig (s : StreamChecker) (channels : List (String × List Entry)) :
    StreamChecker :=
  { stream_groups := channels,
    current_index := channels.map (fun p => (p.1, migrateIndex s.current_index p.1 p.2)) }

/-- The scan loop `for i in range(num_entries)` of `get_active_streams`
step 3: `i` is the loop counter, `rem` the remaining iterations; the first
position `(start + i) % n` whose probe result is true wins and its absolute
index is returned. -/
def scanRem (n start : Nat) (res : Nat → Bool) (i : Nat) : Nat → Option Nat
  | 0 => none
  | rem + 1 =>
    if res ((start + i) % n) then some ((start + i) % n)
    else scanRem n start res (i + 1) rem

/-- Step 3 of `get_active_streams` for one group: scan positions
`(start_index + i) % num_entries` for `i = 0 .. num_entries - 1` and return
the absolute index of the first position whose check result is true. -/
def chooseIndex (n start : Nat) (res : Nat → Bool) : Option Nat :=
  scanRem n start res 0 n

/-- Step 1 of `get_active_streams` for one group (the body building
`groups_to_process` under the lock): skip empty groups; clamp an out-of-range
stored cursor to a `start_index` of 0. -/
def snapGroup (s : StreamChecker) (g : String) (entries : List Entry) :
    Option (List Entry × Nat) :=
  if entries.length = 0 then none
  else some (entries, if idxOf s g < entries.length then idxOf s g else 0)

/-- Step 1 of `get_active_streams`: the snapshot `groups_to_process` taken
under the lock — per surviving group, its entries and validated start index. -/
def snapshotGroups (s : StreamChecker) : List (String × (List Entry × Nat)) :=
  s.stream_groups.filterMap (fun p => (snapGroup s p.1 p.2).map (fun c => (p.1, c)))

/-- Step 3 of `get_active_streams` for one snapshotted group: the absolute
index `chosen_stream_original_index` of the winner, if any. -/
def selectGroup (v : String → Nat → Bool) (g : String) (c : List Entry × Nat) :
    Option Nat :=
  chooseIndex c.1.length c.2 (v g)

/-- Step 3 of `get_active_streams` for one snapshotted group: the winning
entry `chosen_stream_entry`, if any. -/
def selectEntry (v : String → Nat → Bool) (g : String) (c : List Entry × Nat) :
    Option Entry :=
  (chooseIndex c.1.length c.2 (v g)).map (fun j => c.1.getD j "")

/-- Step 3 of `get_active_streams`: the `new_current_indices` dict — per
group with a working stream, the chosen stream's absolute index. -/
def newCurrentIndices (snap : List (String × (List Entry × Nat)))
    (v : String → Nat → Bool) : List (String × Nat) :=
  snap.filterMap (fun p => (selectGroup v p.1 p.2).map (fun c => (p.1, c)))

/-- Step 3 of `get_active_streams`: the `active_working_streams` dict — per
group with a working stream, the chosen stream entry itself. -/
def activeStreams (snap : List (String × (List Entry × Nat)))
    (v : String → Nat → Bool) : List (String × Entry) :=
  snap.filterMap (fun p => (selectEntry v p.1 p.2).map (fun c => (p.1, c)))

/-- Step 4 of `get_active_streams`: commit `new_current_indices` into
`self.current_index`, skipping any group that no longer exists in
`self.stream_groups` (guard against a concurrent `update_config`). -/
def commitIndices (s : StreamChecker) (upd : List (String × Nat)) : StreamChecker :=
  { s with
    current_index := upd.foldl
      (fun m p => if (alookup p.1 s.stream_groups).isSome then aset p.1 p.2 m else m)
      s.current_index }

/-- `StreamChecker.get_active_streams` run to completion with no interleaved
writer: snapshot, check all streams (verdicts `v`), select per group, commit
the new indices. Returns the `active_working_streams` result and the
post-call state. -/
def getActiveStreams (s : StreamChecker) (v : String → Nat → Bool) :
    List (String × Entry) × StreamChecker :=
  (activeStreams (snapshotGroups s) v,
   commitIndices s (newCurrentIndices (snapshotGroups s) v))

/-- The body of `background_monitor`'s snapshot loop for one group: skip
empty groups; take the entry at the stored cursor, after the safety check
`if idx >= len(entries): idx = 0`. -/
def monitorEntry (s : StreamChecker) (g : String) (entries : List Entry) :
    Option Entry :=
  if entries.length = 0 then none
  else some (entries.getD (if entries.length ≤ idxOf s g then 0 else idxOf s g) "")

/-- The snapshot phase of `StreamChecker.background_monitor`
(`streams_to_check_in_monitor`): per non-empty group, the entry at the stored
cursor, reset to index 0 when the cursor is out of range. -/
def monitorTargets (s : StreamChecker) : List (String × Entry) :=
  s.stream_groups.filterMap (fun p => (monitorEntry s p.1 p.2).map (fun c => (p.1, c)))

/-! ## The probe `_is_stream_working` -/

/-- Outcome of `requests.get(url, ...)`: a response with a status code, or a
`requests.exceptions.Timeout`, or some other exception (connection error,
DNS failure, malformed URL, ...). -/
inductive HttpOutcome where
  | response (status_code : Nat)
  | timeout
  | otherError
deriving DecidableEq, Repr

/-- The argument of `_is_stream_working`: an entry dict that has a `url`
key, an entry dict without one, or a raw url string. -/
inductive ProbeInput where
  | dictWithUrl (url : String)
  | dictNoUrl
  | rawUrl (url : String)
deriving DecidableEq, Repr

/-- `StreamChecker._is_stream_working`, with the network abstracted as
`http : url → HttpOutcome`. `Except.ok b` means the call returned `b`;
`Except.error e` means an exception `e` escaped to the caller. For a dict
argument without a `url` key, `entry['url']` raises `KeyError` and the
generic `except Exception` handler's log message references the still
unbound local `url`, so the handler itself raises `UnboundLocalError`,
which propagates. -/
def isStreamWorking (http : String → HttpOutcome) : ProbeInput → Except String Bool
  | .dictNoUrl => .error "UnboundLocalError"
  | .dictWithUrl url | .rawUrl url =>
    match http url with
    | .response code => .ok (code = 200 || code = 301 || code = 302)
    | .timeout => .ok false
    | .otherError => .ok false

/-! ## Well-formedness and the cursor range invariant -/

/-- The channel names of a checker state are distinct (Python dict keys). -/
def KeysNodup (s : StreamChecker) : Prop :=
  (s.stream_groups.map Prod.fst).Nodup

/-- The cursor range invariant: every channel with at least one candidate
has its stored cursor inside `[0, N)`. -/
def Inv (s : StreamChecker) : Prop :=
  ∀ g entries, alookup g s.stream_groups = some entries → 0 < entries.length →
    idxOf s g < entries.length

/-- A well-formed checker state: distinct channel names and in-range
cursors. -/
def Good (s : StreamChecker) : Prop :=
  KeysNodup s ∧ Inv s

/-! ## Interleavings of the lock-protected critical sections

Each constructor is one atomic, lock-protected critical section of the
source: `mark_stream_failed`, `update_config`, or the snapshot/commit pair
of `get_active_streams`. In `select`, the snapshot is taken in state `t₁`
and the commit is applied in a later state `t₂`, with arbitrary operations
in between — exactly the window in which `get_active_streams` holds no lock
while probing. -/
inductive Interleave : StreamChecker → StreamChecker → Prop where
  | refl (s) : Interleave s s
  | advance (s t : StreamChecker) (c : String) :
      Interleave s t → Interleave s (markStreamFailed t c)
  | load (s t : StreamChecker) (tbl : List (String × List Entry)) :
      (tbl.map Prod.fst).Nodup → Interleave s t → Interleave s (updateConfig t tbl)
  | select (s t₁ t₂ : StreamChecker) (v : String → Nat → Bool) :
      Interleave s t₁ → Interleave t₁ t₂ →
      Interleave s (commitIndices t₂ (newCurrentIndices (snapshotGroups t₁) v))

/-- Interleavings in which the channel table at each selection's commit is
the same as at its snapshot (no effective `update_config` in the unlocked
window between the two). -/
inductive SafeInterleave : StreamChecker → StreamChecker → Prop where
  | refl (s) : SafeInterleave s s
  | advance (s t : StreamChecker) (c : String) :
      SafeInterleave s t → SafeInterleave s (markStreamFailed t c)
  | load (s t : StreamChecker) (tbl : List (String × List Entry)) :
      (tbl.map Prod.fst).Nodup → SafeInterleave s t → SafeInterleave s (updateConfig t tbl)
  | select (s t₁ t₂ : StreamChecker) (v : String → Nat → Bool) :
      SafeInterleave s t₁ → SafeInterleave t₁ t₂ →
      t₂.stream_groups = t₁.stream_groups →
      SafeInterleave s (commitIndices t₂ (newCurrentIndices (snapshotGroups t₁) v))

/-! ## Up-front probing versus sequential probing (spec §4.3 rationale) -/

/-- The per-group check results list `group_check_results[gn]`: position `j`
holds the probe verdict of candidate `j`, all candidates probed up front
(entries whose future raised keep the default `False`). -/
def precomputedResults (n : Nat) (probe : Nat → Bool) : List Bool :=
  (List.range n).map probe

/-- Step 3's in-memory walk reading from a precomputed results list
(`results_for_group[idx_to_try]`, default `False` out of range). -/
def scanPrecomputed (results : List Bool) (start : Nat) : Option Nat :=
  chooseIndex results.length start (fun j => results.getD j false)

/-- Modelled from the spec: the alternative strategy the spec's rationale
compares against — sequentially probe candidates in rotation order starting
at the cursor and stop at the first success (no such code exists in the
repository; this follows §4.3's words). -/
def sequentialProbeSelect (n start : Nat) (probe : Nat → Bool) : Option Nat :=
  chooseIndex n start probe

/-! ## Concrete states used by counterexamples and witnesses -/

/-- A channel table with one channel `a` holding three candidates. -/
def cTable : List (String × List Entry) :=
  [("a", ["u0", "u1", "u2"])]

/-- A checker over `cTable` with cursor 0 for channel `a`. -/
def cState : StreamChecker :=
  { stream_groups := cTable, current_index := [("a", 0)] }

/-- A reloaded table in which channel `a` shrank to one candidate. -/
def cShrunkTable : List (String × List Entry) :=
  [("a", ["u0"])]

/-- Probe verdicts under which only candidate 2 of each group works. -/
def cVerdict : String → Nat → Bool :=
  fun _ j => j == 2

section AListLemmas

variable {β : Type} {γ : Type}

theorem alookup_aset_self (k : String) (v : β) (m : List (String × β)) :
    alookup k (aset k v m) = some v := by
  induction m with
  | nil => simp [aset, alookup]
  | cons p rest ih =>
    by_cases h : k = p.1
    · simp [aset, h, alookup]
    · simp [aset, h, alookup, ih]

theorem alookup_aset_ne (g k : String) (v : β) (m : List (String × β)) (h : g ≠ k) :
    alookup g (aset k v m) = alookup g m := by
  induction m with
  | nil => simp [aset, alookup, h]
  | cons p rest ih =>
    by_cases hk : k = p.1
    · subst hk
      simp [aset, alookup, h, ih]
    · by_cases hg : g = p.1
      · simp [aset, alookup, hk, hg]
      · simp [aset, alookup, hk, hg, ih]

theorem alookup_eq_none_of_not_mem (g : String) (m : List (String × β))
    (h : g ∉ m.map Prod.fst) : alookup g m = none := by
  induction m with
  | nil => rfl
  | cons p rest ih =>
    simp only [List.map_cons, List.mem_cons] at h
    push_neg at h
    simp [alookup, h.1, ih h.2]

/-- Lookup through a key-preserving `map` over an association list. -/
theorem alookup_map_keyed (g : String) (f : String → β → γ) (m : List (String × β)) :
    alookup g (m.map (fun p => (p.1, f p.1 p.2))) = (alookup g m).map (f g) := by
  induction m with
  | nil => rfl
  | cons p rest ih =>
    by_cases h : g = p.1
    · simp [alookup, h]
    · simp [alookup, h, ih]

/-- Lookup through a key-preserving `filterMap` over an association list with
distinct keys. -/
theorem alookup_filterMap_keyed (g : String) (F : String → β → Option γ)
    (m : List (String × β)) (hnd : (m.map Prod.fst).Nodup) :
    alookup g (m.filterMap (fun p => (F p.1 p.2).map (fun c => (p.1, c))))
      = (alookup g m).bind (F g) := by
  induction m with
  | nil => rfl
  | cons p rest ih =>
    obtain ⟨k, b⟩ := p
    simp only [List.map_cons, List.nodup_cons] at hnd
    obtain ⟨hp, hrest⟩ := hnd
    by_cases h : g = k
    · subst h
      cases hF : F g b with
      | none =>
        have hkeys :
            alookup g (rest.filterMap (fun p => (F p.1 p.2).map (fun c => (p.1, c))))
              = none := by
          apply alookup_eq_none_of_not_mem
          intro hmem
          apply hp
          rcases List.mem_map.mp hmem with ⟨q, hq, hq1⟩
          rcases List.mem_filterMap.mp hq with ⟨r, hr, hfr⟩
          rcases Option.map_eq_some'.mp hfr with ⟨c, _, hc⟩
          subst hc
          exact hq1 ▸ List.mem_map_of_mem Prod.fst hr
        simp [List.filterMap_cons, hF, alookup, hkeys]
      | some c =>
        simp [List.filterMap_cons, hF, alookup]
    · cases hF : F k b with
      | none => simpa [List.filterMap_cons, hF, alookup, h] using ih hrest
      | some c => simpa [List.filterMap_cons, hF, alookup, h] using ih hrest

/-- The keys of a key-preserving `filterMap` form a sublist of the original
keys. -/
theorem keys_filterMap_keyed_sublist (F : String → β → Option γ)
    (m : List (String × β)) :
    ((m.filterMap (fun p => (F p.1 p.2).map (fun c => (p.1, c)))).map Prod.fst).Sublist
      (m.map Prod.fst) := by
  induction m with
  | nil => simp
  | cons p rest ih =>
    cases hF : F p.1 p.2 with
    | none =>
      simp only [List.filterMap_cons, hF, Option.map_none', List.map_cons]
      exact ih.cons p.1
    | some c =>
      simp only [List.filterMap_cons, hF, Option.map_some', List.map_cons]
      exact ih.cons₂ p.1

theorem keys_filterMap_keyed_nodup (F : String → β → Option γ)
    (m : List (String × β)) (hnd : (m.map Prod.fst).Nodup) :
    ((m.filterMap (fun p => (F p.1 p.2).map (fun c => (p.1, c)))).map Prod.fst).Nodup :=
  hnd.sublist (keys_filterMap_keyed_sublist F m)

end AListLemmas

section ScanLemmas

theorem scanRem_some_lt (n start : Nat) (res : Nat → Bool) (i rem j : Nat)
    (hn : 0 < n) (h : scanRem n start res i rem = some j) : j < n := by
  induction rem generalizing i with
  | zero => simp [scanRem] at h
  | succ rem ih =>
    unfold scanRem at h
    split at h
    · cases h
      exact Nat.mod_lt _ hn
    · exact ih (i + 1) h

theorem scanRem_first_hit (n start : Nat) (res : Nat → Bool) (i rem i₀ : Nat)
    (hlo : i ≤ i₀) (hhi : i₀ < i + rem)
    (hhit : res ((start + i₀) % n) = true)
    (hmin : ∀ k, i ≤ k → k < i₀ → res ((start + k) % n) = false) :
    scanRem n start res i rem = some ((start + i₀) % n) := by
  induction rem generalizing i with
  | zero => omega
  | succ rem ih =>
    unfold scanRem
    rcases Nat.eq_or_lt_of_le hlo with heq | hlt
    · subst heq
      simp [hhit]
    · rw [hmin i (Nat.le_refl i) hlt]
      simp only [Bool.false_eq_true, if_false]
      exact ih (i + 1) hlt (by omega) (fun k hk => hmin k (by omega))

theorem scanRem_none (n start : Nat) (res : Nat → Bool) (i rem : Nat)
    (hn : 0 < n) (h : ∀ j, j < n → res j = false) :
    scanRem n start res i rem = none := by
  induction rem generalizing i with
  | zero => rfl
  | succ rem ih =>
    unfold scanRem
    rw [h _ (Nat.mod_lt _ hn)]
    simp only [Bool.false_eq_true, if_false]
    exact ih (i + 1)

theorem scanRem_congr (n start : Nat) (res res' : Nat → Bool) (i rem : Nat)
    (hn : 0 < n) (h : ∀ j, j < n → res j = res' j) :
    scanRem n start res i rem = scanRem n start res' i rem := by
  induction rem generalizing i with
  | zero => rfl
  | succ rem ih =>
    unfold scanRem
    rw [h _ (Nat.mod_lt _ hn), ih (i + 1)]

theorem chooseIndex_some_lt (n start : Nat) (res : Nat → Bool) (j : Nat)
    (h : chooseIndex n start res = some j) : j < n := by
  cases n with
  | zero => simp [chooseIndex, scanRem] at h
  | succ m => exact scanRem_some_lt _ _ _ _ _ _ (Nat.succ_pos m) h

theorem chooseIndex_first_hit (n start : Nat) (res : Nat → Bool) (i₀ : Nat)
    (hhi : i₀ < n) (hhit : res ((start + i₀) % n) = true)
    (hmin : ∀ k, k < i₀ → res ((start + k) % n) = false) :
    chooseIndex n start res = some ((start + i₀) % n) :=
  scanRem_first_hit n start res 0 n i₀ (Nat.zero_le _) (by omega) hhit
    (fun k _ hk => hmin k hk)

theorem chooseIndex_none (n start : Nat) (res : Nat → Bool)
    (h : ∀ j, j < n → res j = false) : chooseIndex n start res = none := by
  cases n with
  | zero => rfl
  | succ m => exact scanRem_none _ _ _ _ _ (Nat.succ_pos m) h

end ScanLemmas

section CommitLemmas

/-- Effect of the step-4 commit loop on a single key, when the committed
update dict has distinct keys: a key in the update that still exists in
`stream_groups` gets its new index; every other key keeps its old binding. -/
theorem alookup_commit_fold (groups : List (String × List Entry))
    (upd : List (String × Nat)) (m : List (String × Nat)) (g : String)
    (hnd : (upd.map Prod.fst).Nodup) :
    alookup g (upd.foldl
        (fun m p => if (alookup p.1 groups).isSome then aset p.1 p.2 m else m) m)
      = match alookup g upd with
        | some j => if (alookup g groups).isSome then some j else alookup g m
        | none => alookup g m := by
  induction upd generalizing m with
  | nil => simp [alookup]
  | cons p rest ih =>
    obtain ⟨k, j⟩ := p
    simp only [List.map_cons, List.nodup_cons] at hnd
    obtain ⟨hk, hrest⟩ := hnd
    rw [List.foldl_cons, ih _ hrest]
    by_cases h : g = k
    · subst h
      have hnone : alookup g rest = none :=
        alookup_eq_none_of_not_mem g rest hk
      rw [hnone]
      simp only [alookup, if_pos rfl]
      by_cases hmem : (alookup g groups).isSome
      · simp [hmem, alookup_aset_self]
      · simp [hmem]
    · have : alookup g ((k, j) :: rest) = alookup g rest := by
        simp [alookup, h]
      rw [this]
      cases alookup g rest with
      | none =>
        by_cases hmem : (alookup k groups).isSome
        · simp [hmem, alookup_aset_ne g k j m h]
        · simp [hmem]
      | some j' =>
        by_cases hmem : (alookup k groups).isSome
        · simp [hmem, alookup_aset_ne g k j m h]
        · simp [hmem]

end CommitLemmas

section LookupCorollaries

theorem alookup_snapshotGroups (s : StreamChecker) (g : String) (hnd : KeysNodup s) :
    alookup g (snapshotGroups s) = (alookup g s.stream_groups).bind (snapGroup s g) :=
  alookup_filterMap_keyed g (snapGroup s) s.stream_groups hnd

theorem snapshotGroups_keys_nodup (s : StreamChecker) (hnd : KeysNodup s) :
    ((snapshotGroups s).map Prod.fst).Nodup :=
  keys_filterMap_keyed_nodup (snapGroup s) s.stream_groups hnd

theorem alookup_newCurrentIndices (snap : List (String × (List Entry × Nat)))
    (v : String → Nat → Bool) (g : String) (hnd : (snap.map Prod.fst).Nodup) :
    alookup g (newCurrentIndices snap v) = (alookup g snap).bind (selectGroup v g) :=
  alookup_filterMap_keyed g (selectGroup v) snap hnd

theorem newCurrentIndices_keys_nodup (snap : List (String × (List Entry × Nat)))
    (v : String → Nat → Bool) (hnd : (snap.map Prod.fst).Nodup) :
    ((newCurrentIndices snap v).map Prod.fst).Nodup :=
  keys_filterMap_keyed_nodup (selectGroup v) snap hnd

theorem alookup_activeStreams (snap : List (String × (List Entry × Nat)))
    (v : String → Nat → Bool) (g : String) (hnd : (snap.map Prod.fst).Nodup) :
    alookup g (activeStreams snap v) = (alookup g snap).bind (selectEntry v g) :=
  alookup_filterMap_keyed g (selectEntry v) snap hnd

theorem alookup_monitorTargets (s : StreamChecker) (g : String) (hnd : KeysNodup s) :
    alookup g (monitorTargets s) = (alookup g s.stream_groups).bind (monitorEntry s g) :=
  alookup_filterMap_keyed g (monitorEntry s) s.stream_groups hnd

end LookupCorollaries

section Invariant

theorem markStreamFailed_stream_groups (s : StreamChecker) (c : String) :
    (markStreamFailed s c).stream_groups = s.stream_groups := by
  unfold markStreamFailed
  cases alookup c s.stream_groups with
  | none => rfl
  | some entries =>
    simp only
    split <;> rfl

theorem commitIndices_stream_groups (s : StreamChecker) (upd : List (String × Nat)) :
    (commitIndices s upd).stream_groups = s.stream_groups := rfl

theorem good_markStreamFailed (s : StreamChecker) (c : String) (hs : Good s) :
    Good (markStreamFailed s c) := by
  obtain ⟨hnd, hinv⟩ := hs
  constructor
  · unfold KeysNodup
    rw [markStreamFailed_stream_groups]
    exact hnd
  · intro g entries hg hlen
    rw [markStreamFailed_stream_groups] at hg
    unfold markStreamFailed
    cases hc : alookup c s.stream_groups with
    | none => exact hinv g entries hg hlen
    | some centries =>
      simp only
      split
      · by_cases hgc : g = c
        · subst hgc
          rw [hg] at hc
          cases hc
          unfold idxOf
          simp only [alookup_aset_self]
          exact Nat.mod_lt _ hlen
        · unfold idxOf
          simp only [alookup_aset_ne g c _ _ hgc]
          exact hinv g entries hg hlen
      · exact hinv g entries hg hlen

theorem good_updateConfig (s : StreamChecker) (tbl : List (String × List Entry))
    (hnd : (tbl.map Prod.fst).Nodup) (_ : Good s) : Good (updateConfig s tbl) := by
  constructor
  · exact hnd
  · intro g entries hg hlen
    unfold updateConfig at hg ⊢
    simp only at hg
    unfold idxOf
    simp only [alookup_map_keyed g (migrateIndex s.current_index) tbl, hg,
      Option.map_some', Option.getD_some]
    unfold migrateIndex
    cases alookup g s.current_index with
    | none => exact hlen
    | some oldIdx =>
      simp only
      split
      · assumption
      · exact hlen

/-- The invariant-preservation core of `get_active_streams` step 4: a commit
computed from a snapshot of `t₁` is safe in any state `t₂` whose channel
table is the same as `t₁`'s. -/
theorem good_commitIndices (t₁ t₂ : StreamChecker) (v : String → Nat → Bool)
    (hg : t₂.stream_groups = t₁.stream_groups) (h₂ : Good t₂) :
    Good (commitIndices t₂ (newCurrentIndices (snapshotGroups t₁) v)) := by
  obtain ⟨hnd₂, hinv₂⟩ := h₂
  have hnd₁ : KeysNodup t₁ := by
    unfold KeysNodup
    rw [← hg]
    exact hnd₂
  have hsnap := snapshotGroups_keys_nodup t₁ hnd₁
  have hupd := newCurrentIndices_keys_nodup (snapshotGroups t₁) v hsnap
  constructor
  · exact hnd₂
  · intro g entries hgl hlen
    rw [commitIndices_stream_groups] at hgl
    unfold idxOf commitIndices
    simp only
    rw [alookup_commit_fold t₂.stream_groups _ _ _ hupd]
    cases hn : alookup g (newCurrentIndices (snapshotGroups t₁) v) with
    | none => exact hinv₂ g entries hgl hlen
    | some j =>
      simp only [hgl, Option.isSome_some, if_pos rfl, Option.getD_some]
      rw [alookup_newCurrentIndices _ _ _ hsnap, alookup_snapshotGroups _ _ hnd₁,
        ← hg, hgl] at hn
      simp only [Option.some_bind] at hn
      unfold snapGroup at hn
      rw [if_neg (Nat.pos_iff_ne_zero.mp hlen)] at hn
      simp only [Option.some_bind] at hn
      exact chooseIndex_some_lt _ _ _ _ hn

theorem idxOf_markStreamFailed_self (t : StreamChecker) (ch : String)
    (entries : List Entry) (hch : alookup ch t.stream_groups = some entries)
    (hlen : 0 < entries.length) :
    idxOf (markStreamFailed t ch) ch = (idxOf t ch + 1) % entries.length := by
  unfold markStreamFailed
  rw [hch]
  simp only [hlen, if_pos]
  unfold idxOf
  simp [alookup_aset_self]

end Invariant

section Claims

/-- Claim C2 (amended): for every channel with `N > 0` candidates, the invariant
`0 ≤ cursor < N` holds in every state reachable by interleavings of
`get_active_streams`, `mark_stream_failed` and `update_config`, provided the
channel table at each selection's deferred commit equals the table at its
snapshot (no effective `Load` in the unlocked probing window); distinct
channel names are likewise preserved. -/
theorem cursor_invariant_safe_interleave (s t : StreamChecker)
    (h : SafeInterleave s t) : Good s → Good t := by
  induction h with
  | refl s => exact id
  | advance s t c _ ih => exact fun hs => good_markStreamFailed t c (ih hs)
  | load s t tbl hnd _ ih => exact fun hs => good_updateConfig t tbl hnd (ih hs)
  | select s t₁ t₂ v _ _ hg ih₁ ih₂ =>
    exact fun hs => good_commitIndices t₁ t₂ v hg (ih₂ (ih₁ hs))

/-- Witness for C2 (amended): one `mark_stream_failed` step from the
concrete three-candidate state keeps the state well-formed. -/
theorem cursor_invariant_safe_interleave_witness :
    Good (markStreamFailed cState "a") := by
  apply cursor_invariant_safe_interleave cState (markStreamFailed cState "a")
    (SafeInterleave.advance cState cState "a" (SafeInterleave.refl cState))
  constructor
  · unfold KeysNodup
    decide
  · intro g entries hg hlen
    simp only [cState, cTable, alookup] at hg
    split at hg
    · rename_i hga
      cases hg
      subst hga
      decide
    · cases hg

/-- Claim C2 as stated is false: with arbitrary operations between a selection's
snapshot and its commit, an `update_config` that shrinks channel `a` from
three candidates to one lets the commit write cursor 2 into a
one-candidate channel — outside `[0, N)`. -/
theorem cursor_invariant_interleave_counterexample :
    ¬ (∀ t : StreamChecker, Interleave cState t → Inv t) := by
  intro h
  have hreach : Interleave cState
      (commitIndices (updateConfig cState cShrunkTable)
        (newCurrentIndices (snapshotGroups cState) cVerdict)) :=
    Interleave.select cState cState (updateConfig cState cShrunkTable) cVerdict
      (Interleave.refl cState)
      (Interleave.load cState cState cShrunkTable (by decide) (Interleave.refl cState))
  have hinv := h _ hreach
  have h1 : alookup "a" (commitIndices (updateConfig cState cShrunkTable)
      (newCurrentIndices (snapshotGroups cState) cVerdict)).stream_groups
        = some ["u0"] := by decide
  have h2 := hinv "a" ["u0"] h1 (by decide)
  exact absurd h2 (by decide)

/-- Claim C1: for a channel with `N ≥ 1` candidates and an in-range snapshot
cursor, `get_active_streams` examines positions `(cursor + i) % N` in order,
returns the candidate at the first position whose probe succeeded as that
channel's entry in the result map, and commits that position's absolute
index as the channel's new cursor. -/
theorem getActiveStreams_first_working (s : StreamChecker) (v : String → Nat → Bool)
    (ch : String) (entries : List Entry) (i₀ : Nat)
    (hnd : KeysNodup s)
    (hch : alookup ch s.stream_groups = some entries)
    (hc : idxOf s ch < entries.length)
    (hi : i₀ < entries.length)
    (hhit : v ch ((idxOf s ch + i₀) % entries.length) = true)
    (hmin : ∀ k, k < i₀ → v ch ((idxOf s ch + k) % entries.length) = false) :
    alookup ch (getActiveStreams s v).1
        = some (entries.getD ((idxOf s ch + i₀) % entries.length) "")
      ∧ idxOf (getActiveStreams s v).2 ch = (idxOf s ch + i₀) % entries.length := by
  have hlen : 0 < entries.length := Nat.lt_of_le_of_lt (Nat.zero_le _) hi
  have hsnapnd := snapshotGroups_keys_nodup s hnd
  have hne : entries ≠ [] := by
    intro h
    subst h
    simp at hlen
  have hsnap : alookup ch (snapshotGroups s) = some (entries, idxOf s ch) := by
    rw [alookup_snapshotGroups s ch hnd, hch]
    simp [snapGroup, hne, hc]
  have hchoose : chooseIndex entries.length (idxOf s ch) (v ch)
      = some ((idxOf s ch + i₀) % entries.length) :=
    chooseIndex_first_hit entries.length (idxOf s ch) (v ch) i₀ hi hhit hmin
  constructor
  · show alookup ch (activeStreams (snapshotGroups s) v) = _
    rw [alookup_activeStreams _ _ _ hsnapnd, hsnap]
    simp [selectEntry, hchoose]
  · show idxOf (commitIndices s (newCurrentIndices (snapshotGroups s) v)) ch = _
    unfold idxOf commitIndices
    simp only
    rw [alookup_commit_fold _ _ _ _ (newCurrentIndices_keys_nodup _ _ hsnapnd),
      alookup_newCurrentIndices _ _ _ hsnapnd, hsnap]
    simp only [Option.some_bind, selectGroup, hchoose, hch, Option.isSome_some,
      if_true, Option.getD_some]
    rfl

/-- Witness for C1: candidates `[A(fail), B(ok), C(ok)]` with cursor 0 —
`get_active_streams` returns B for the channel and sets its cursor to 1. -/
theorem getActiveStreams_first_working_witness :
    alookup "b" (getActiveStreams ⟨[("b", ["A", "B", "C"])], [("b", 0)]⟩
        (fun _ j => decide (1 ≤ j))).1 = some "B"
    ∧ idxOf (getActiveStreams ⟨[("b", ["A", "B", "C"])], [("b", 0)]⟩
        (fun _ j => decide (1 ≤ j))).2 "b" = 1 := by
  have h := getActiveStreams_first_working
    ⟨[("b", ["A", "B", "C"])], [("b", 0)]⟩ (fun _ j => decide (1 ≤ j))
    "b" ["A", "B", "C"] 1
    (by unfold KeysNodup; decide) (by decide) (by decide) (by decide)
    (by decide) (by decide)
  refine ⟨?_, ?_⟩
  · rw [h.1]
    decide
  · rw [h.2]
    decide

/-- Claim C3: after `update_config`, a channel of the new table keeps its old
cursor exactly when it was already tracked (channel names of
`current_index` and of the old table coincide in a well-formed state) and
the old cursor is strictly below the new candidate count; otherwise its
cursor is 0. -/
theorem updateConfig_cursor_migration (s : StreamChecker)
    (tbl : List (String × List Entry)) (g : String) (entries : List Entry)
    (hg : alookup g tbl = some entries)
    (hkeys : (alookup g s.current_index).isSome = (alookup g s.stream_groups).isSome) :
    idxOf (updateConfig s tbl) g
      = if (alookup g s.stream_groups).isSome ∧ idxOf s g < entries.length
        then idxOf s g else 0 := by
  unfold updateConfig idxOf
  simp only
  rw [alookup_map_keyed g (migrateIndex s.current_index) tbl, hg]
  simp only [Option.map_some', Option.getD_some]
  unfold migrateIndex
  cases ho : alookup g s.current_index with
  | none =>
    rw [ho] at hkeys
    simp only [Option.isSome_none] at hkeys
    simp [← hkeys]
  | some oldIdx =>
    rw [ho] at hkeys
    simp only [Option.isSome_some] at hkeys
    simp only [Option.getD_some]
    by_cases hlt : oldIdx < entries.length
    · simp [hlt, ← hkeys]
    · simp [hlt]

/-- Witness for C3: with old cursor 2, a reload to three candidates keeps
cursor 2 and a reload to two candidates resets it to 0. -/
theorem updateConfig_cursor_migration_witness :
    idxOf (updateConfig ⟨[("a", ["x", "y", "z"])], [("a", 2)]⟩
      [("a", ["p", "q", "r"])]) "a" = 2
    ∧ idxOf (updateConfig ⟨[("a", ["x", "y", "z"])], [("a", 2)]⟩
      [("a", ["p", "q"])]) "a" = 0 := by
  refine ⟨?_, ?_⟩
  · rw [updateConfig_cursor_migration ⟨[("a", ["x", "y", "z"])], [("a", 2)]⟩
      [("a", ["p", "q", "r"])] "a" ["p", "q", "r"] (by decide) (by decide)]
    decide
  · rw [updateConfig_cursor_migration ⟨[("a", ["x", "y", "z"])], [("a", 2)]⟩
      [("a", ["p", "q"])] "a" ["p", "q"] (by decide) (by decide)]
    decide

/-- Claim C5: a channel all of whose candidate probes failed (in particular one
with an empty candidate list) is omitted from the result of
`get_active_streams` — no entry at all is emitted for it. -/
theorem getActiveStreams_all_fail_omitted (s : StreamChecker)
    (v : String → Nat → Bool) (ch : String) (entries : List Entry)
    (hnd : KeysNodup s)
    (hch : alookup ch s.stream_groups = some entries)
    (hfail : ∀ j, j < entries.length → v ch j = false) :
    alookup ch (getActiveStreams s v).1 = none := by
  show alookup ch (activeStreams (snapshotGroups s) v) = none
  rw [alookup_activeStreams _ _ _ (snapshotGroups_keys_nodup s hnd),
    alookup_snapshotGroups s ch hnd, hch]
  simp only [Option.some_bind]
  unfold snapGroup
  by_cases hz : entries.length = 0
  · simp [hz]
  · simp only [hz, if_false, Option.some_bind]
    simp [selectEntry, chooseIndex_none entries.length _ (v ch) hfail]

/-- Witness for C5: with every probe failing, channel `a` of the concrete
state is absent from the result map. -/
theorem getActiveStreams_all_fail_omitted_witness :
    alookup "a" (getActiveStreams cState (fun _ _ => false)).1 = none :=
  getActiveStreams_all_fail_omitted cState (fun _ _ => false) "a"
    ["u0", "u1", "u2"] (by unfold KeysNodup; decide) (by decide)
    (fun j _ => rfl)

/-- Claim C9: `get_active_streams` never changes the channel table, and for a
channel for which no probe succeeded (in particular one absent from the
table, with the hypothesis vacuous) it leaves the stored cursor binding
untouched. -/
theorem getActiveStreams_frame (s : StreamChecker) (v : String → Nat → Bool)
    (ch : String) (hnd : KeysNodup s)
    (hfail : ∀ entries, alookup ch s.stream_groups = some entries →
      ∀ j, j < entries.length → v ch j = false) :
    (getActiveStreams s v).2.stream_groups = s.stream_groups
    ∧ alookup ch (getActiveStreams s v).2.current_index
        = alookup ch s.current_index := by
  have hsnapnd := snapshotGroups_keys_nodup s hnd
  constructor
  · rfl
  · show alookup ch (commitIndices s (newCurrentIndices (snapshotGroups s) v)).current_index = _
    unfold commitIndices
    simp only
    rw [alookup_commit_fold _ _ _ _ (newCurrentIndices_keys_nodup _ _ hsnapnd),
      alookup_newCurrentIndices _ _ _ hsnapnd, alookup_snapshotGroups s ch hnd]
    cases hch : alookup ch s.stream_groups with
    | none => rfl
    | some entries =>
      simp only [Option.some_bind]
      unfold snapGroup
      by_cases hz : entries.length = 0
      · simp [hz]
      · simp only [hz, if_false, Option.some_bind]
        simp [selectGroup, chooseIndex_none entries.length _ (v ch) (hfail entries hch)]

/-- Witness for C9: with every probe failing, the call leaves both the
channel table and channel `a`'s cursor binding of the concrete state
unchanged. -/
theorem getActiveStreams_frame_witness :
    (getActiveStreams cState (fun _ _ => false)).2.stream_groups = cState.stream_groups
    ∧ alookup "a" (getActiveStreams cState (fun _ _ => false)).2.current_index
        = alookup "a" cState.current_index :=
  getActiveStreams_frame cState (fun _ _ => false) "a"
    (by unfold KeysNodup; decide) (fun _ _ j _ => rfl)

/-- Claim C6: `mark_stream_failed` on an existing channel with `N ≥ 1` candidates
sets that channel's cursor to `(cursor + 1) % N`, leaving the channel table
and every other channel's cursor binding unchanged; on an absent channel,
or one with zero candidates, it leaves the entire state unchanged. -/
theorem markStreamFailed_spec (s : StreamChecker) (ch : String) :
    (∀ entries, alookup ch s.stream_groups = some entries → 0 < entries.length →
        (markStreamFailed s ch).stream_groups = s.stream_groups
        ∧ idxOf (markStreamFailed s ch) ch = (idxOf s ch + 1) % entries.length
        ∧ ∀ g, g ≠ ch →
            alookup g (markStreamFailed s ch).current_index
              = alookup g s.current_index)
    ∧ (alookup ch s.stream_groups = none → markStreamFailed s ch = s)
    ∧ (∀ entries, alookup ch s.stream_groups = some entries →
        entries.length = 0 → markStreamFailed s ch = s) := by
  refine ⟨?_, ?_, ?_⟩
  · intro entries hch hlen
    refine ⟨markStreamFailed_stream_groups s ch, ?_, ?_⟩
    · unfold markStreamFailed
      rw [hch]
      simp only [hlen, if_pos]
      unfold idxOf
      simp [alookup_aset_self]
    · intro g hg
      unfold markStreamFailed
      rw [hch]
      simp only [hlen, if_pos]
      simp [alookup_aset_ne g ch _ _ hg]
  · intro hch
    unfold markStreamFailed
    rw [hch]
  · intro entries hch hlen
    unfold markStreamFailed
    rw [hch]
    simp [hlen]

/-- Witness for C6: on the concrete state, failing channel `a` advances its
cursor from 0 to 1, and failing the absent channel `z` is the identity. -/
theorem markStreamFailed_spec_witness :
    idxOf (markStreamFailed cState "a") "a" = 1
    ∧ markStreamFailed cState "z" = cState := by
  refine ⟨?_, ?_⟩
  · rw [((markStreamFailed_spec cState "a").1 ["u0", "u1", "u2"]
      (by decide) (by decide)).2.1]
    decide
  · exact (markStreamFailed_spec cState "z").2.1 (by decide)

/-- Claim C7: on a channel with `N ≥ 1` candidates and an in-range cursor,
applying `mark_stream_failed` exactly `N` times returns the cursor to its
starting value. -/
theorem markStreamFailed_cyclic (s : StreamChecker) (ch : String)
    (entries : List Entry)
    (hch : alookup ch s.stream_groups = some entries)
    (hlen : 0 < entries.length) (hc : idxOf s ch < entries.length) :
    idxOf ((fun t => markStreamFailed t ch)^[entries.length] s) ch = idxOf s ch := by
  have groups_eq : ∀ k, ((fun t => markStreamFailed t ch)^[k] s).stream_groups
      = s.stream_groups := by
    intro k
    induction k with
    | zero => rfl
    | succ k ih =>
      rw [Function.iterate_succ_apply', markStreamFailed_stream_groups, ih]
  have cursor_eq : ∀ k, idxOf ((fun t => markStreamFailed t ch)^[k] s) ch
      = (idxOf s ch + k) % entries.length := by
    intro k
    induction k with
    | zero => exact (Nat.mod_eq_of_lt hc).symm
    | succ k ih =>
      rw [Function.iterate_succ_apply',
        idxOf_markStreamFailed_self _ ch entries (by rw [groups_eq k]; exact hch) hlen,
        ih, Nat.mod_add_mod, Nat.add_assoc]
  rw [cursor_eq entries.length, Nat.add_mod_right, Nat.mod_eq_of_lt hc]

/-- Witness for C7: three advances on the three-candidate concrete state
bring the cursor back to 0. -/
theorem markStreamFailed_cyclic_witness :
    idxOf ((fun t => markStreamFailed t "a")^[3] cState) "a" = idxOf cState "a" :=
  markStreamFailed_cyclic cState "a" ["u0", "u1", "u2"]
    (by decide) (by decide) (by decide)

/-- Claim C8: under a fixed probe-verdict function, probing all candidates up
front into a results list and then walking positions `(cursor + i) % N` in
memory picks the same index (hence the same candidate) as sequentially
probing candidates in rotation order from the cursor and stopping at the
first success. -/
theorem precomputed_scan_eq_sequential (n start : Nat) (probe : Nat → Bool) :
    scanPrecomputed (precomputedResults n probe) start
      = sequentialProbeSelect n start probe := by
  unfold scanPrecomputed precomputedResults sequentialProbeSelect
  cases n with
  | zero => rfl
  | succ m =>
    rw [List.length_map, List.length_range]
    unfold chooseIndex
    apply scanRem_congr _ _ _ _ _ _ (Nat.succ_pos m)
    intro j hj
    rw [List.getD_eq_getElem?_getD, List.getElem?_map, List.getElem?_range hj]
    rfl

/-- Claim C4 (divergence witness): `_is_stream_working` applied to an entry dict
without a `url` key raises (KeyError from `entry['url']`, then
UnboundLocalError from the handler's log message referencing the unbound
local `url`) instead of returning `False` — for every behavior of the
network. -/
theorem isStreamWorking_dictNoUrl_raises (http : String → HttpOutcome) :
    isStreamWorking http ProbeInput.dictNoUrl = Except.error "UnboundLocalError" :=
  rfl

/-- Claim C10: an out-of-range stored cursor is tolerated by both read paths:
the `get_active_streams` snapshot clamps the channel's scan start to 0, and
the `background_monitor` snapshot probes the candidate at index 0. -/
theorem out_of_range_cursor_tolerated (s : StreamChecker) (ch : String)
    (entries : List Entry) (hnd : KeysNodup s)
    (hch : alookup ch s.stream_groups = some entries)
    (hlen : 0 < entries.length) (hbad : entries.length ≤ idxOf s ch) :
    alookup ch (snapshotGroups s) = some (entries, 0)
    ∧ alookup ch (monitorTargets s) = some (entries.getD 0 "") := by
  have hne : entries ≠ [] := by
    intro h
    subst h
    simp at hlen
  constructor
  · rw [alookup_snapshotGroups s ch hnd, hch]
    simp [snapGroup, hne, Nat.not_lt.mpr hbad]
  · rw [alookup_monitorTargets s ch hnd, hch]
    simp [monitorEntry, hne, hbad]

/-- Witness for C10: a two-candidate channel with stored cursor 7 snapshots
with start index 0 and is monitored at its first candidate. -/
theorem out_of_range_cursor_tolerated_witness :
    alookup "a" (snapshotGroups ⟨[("a", ["x", "y"])], [("a", 7)]⟩)
        = some (["x", "y"], 0)
    ∧ alookup "a" (monitorTargets ⟨[("a", ["x", "y"])], [("a", 7)]⟩)
        = some "x" :=
  out_of_range_cursor_tolerated ⟨[("a", ["x", "y"])], [("a", 7)]⟩ "a"
    ["x", "y"] (by unfold KeysNodup; decide) (by decide) (by decide) (by decide)

end Claims

end IptvFailover
